import Mathlib

/-!
Verification of `src/pybots/src/navigation/obstacle_primitives.py`.

The source defines two obstacle classes, `ShapePrimitive` (a flat 2-d polygon
with holes, lateral queries delegated to the shapely / geometry.lines
computational-geometry collaborators) and `PrismaticShape` (the flat shape
composed with a down-axis interval `[zt, z0]`, i.e. top and bottom faces).

Embedding choices:
* Python / numpy floating point is modelled by `F`: exact rationals plus the
  IEEE special values `inf`, `ninf` and `nan`.  Rounding is not modelled (the
  claims under study are about exact structure, tolerance slack and the
  special-value behaviour of division by zero); the special-value and
  comparison rules follow IEEE-754 as numpy implements them (`nan` compares
  false with everything, division of a nonzero finite by zero gives a signed
  infinity, `0/0` gives `nan`).
* The external polygon-geometry collaborators (shapely and `geometry.lines`,
  declared out of scope by the design) are modelled as function fields of the
  `Hole`, `Path` and `Poly` structures.  `Poly.within` spells out shapely's
  documented semantics of `Point.within(Polygon)`: the polygon's interior is
  the open region strictly inside the exterior ring minus the closed holes.
* Python exceptions are modelled with `Except PyErr`; the two methods of the
  source that unconditionally raise (`ShapePrimitive.exterior_intersections`
  reads the undefined name `intersections` on line 182, and
  `ShapePrimitive.intersections` calls the nonexistent method
  `exterior_intersection` on line 235) are embedded as the corresponding
  error values, with the pure collaborator calls that precede the raise kept
  for fidelity.
* `numpy.linalg.norm` comparisons are modelled by comparing squared norms
  (`P3.normSq`): square root is strictly monotone on `[0, ∞]` and maps `inf`
  to `inf` and `nan` to `nan`, so every norm comparison made by the source
  has the same outcome on squared norms.
-/

namespace ObstaclePrimitives

/-- Model of a numpy / Python float: an exact rational or one of the IEEE
special values `+inf`, `-inf`, `nan`. -/
inductive F where
  | fin (q : ℚ)
  | inf
  | ninf
  | nan
deriving DecidableEq, Repr

namespace F

/-- IEEE strict less-than: `nan` compares false with everything. -/
def lt : F → F → Bool
  | .fin a, .fin b => decide (a < b)
  | .fin _, .inf => true
  | .ninf, .fin _ => true
  | .ninf, .inf => true
  | _, _ => false

/-- IEEE less-or-equal: `nan` compares false with everything. -/
def le : F → F → Bool
  | .fin a, .fin b => decide (a ≤ b)
  | .fin _, .inf => true
  | .ninf, .fin _ => true
  | .ninf, .ninf => true
  | .ninf, .inf => true
  | .inf, .inf => true
  | _, _ => false

/-- IEEE addition on the model: `inf + ninf = nan`, `nan` propagates. -/
def add : F → F → F
  | .fin a, .fin b => .fin (a + b)
  | .fin _, .inf => .inf
  | .inf, .fin _ => .inf
  | .inf, .inf => .inf
  | .fin _, .ninf => .ninf
  | .ninf, .fin _ => .ninf
  | .ninf, .ninf => .ninf
  | .inf, .ninf => .nan
  | .ninf, .inf => .nan
  | _, _ => .nan

/-- IEEE negation. -/
def neg : F → F
  | .fin a => .fin (-a)
  | .inf => .ninf
  | .ninf => .inf
  | .nan => .nan

/-- IEEE subtraction, `a - b = a + (-b)`. -/
def sub (a b : F) : F := add a (neg b)

/-- IEEE multiplication: `0 * inf = nan`, signs propagate, `nan` propagates. -/
def mul : F → F → F
  | .fin a, .fin b => .fin (a * b)
  | .fin a, .inf => if a = 0 then .nan else if a > 0 then .inf else .ninf
  | .inf, .fin a => if a = 0 then .nan else if a > 0 then .inf else .ninf
  | .fin a, .ninf => if a = 0 then .nan else if a > 0 then .ninf else .inf
  | .ninf, .fin a => if a = 0 then .nan else if a > 0 then .ninf else .inf
  | .inf, .inf => .inf
  | .ninf, .ninf => .inf
  | .inf, .ninf => .ninf
  | .ninf, .inf => .ninf
  | _, _ => .nan

/-- IEEE division as numpy performs it: a nonzero finite divided by zero is a
signed infinity (with a runtime warning, not an exception), `0/0 = nan`,
`inf/0 = inf`, `x/inf = 0`, `inf/inf = nan`, `nan` propagates. -/
def div : F → F → F
  | .fin a, .fin b =>
      if b = 0 then (if a = 0 then .nan else if a > 0 then .inf else .ninf)
      else .fin (a / b)
  | .fin _, .inf => .fin 0
  | .fin _, .ninf => .fin 0
  | .inf, .fin b => if b < 0 then .ninf else .inf
  | .ninf, .fin b => if b < 0 then .inf else .ninf
  | _, _ => .nan

/-- `numpy.maximum` semantics: `nan` propagates, otherwise the larger value. -/
def maxF : F → F → F
  | .nan, _ => .nan
  | _, .nan => .nan
  | a, b => if lt a b then b else a

/-- `numpy.minimum` semantics: `nan` propagates, otherwise the smaller value. -/
def minF : F → F → F
  | .nan, _ => .nan
  | _, .nan => .nan
  | a, b => if lt b a then b else a

/-- `numpy.clip(x, lo, hi)`, documented by numpy as
`minimum(hi, maximum(x, lo))`. -/
def clip (x lo hi : F) : F := minF (maxF x lo) hi

/-- Squaring, used for squared-norm computations. -/
def sq (a : F) : F := mul a a

/-- Is this value a finite real? -/
def finite : F → Bool
  | .fin _ => true
  | _ => false

end F

/-- A 3-component quantity in the local north-east-down frame; used both for
shapely points (`.x`, `.y`, `.z` attributes) and for the `1×3` numpy offset
vectors the source manipulates (components `[0,0]`, `[0,1]`, `[0,2]`, the
last one being the down component). -/
structure P3 where
  x : F
  y : F
  z : F
deriving DecidableEq, Repr

/-- `numpy.zeros((1,3))`. -/
def P3.zero : P3 := ⟨.fin 0, .fin 0, .fin 0⟩

/-- `numpy.ones((1,3)) * numpy.inf`, the "no hole present" sentinel. -/
def infVec : P3 := ⟨.inf, .inf, .inf⟩

/-- Squared euclidean norm of a vector.  Norm comparisons by the source
(`numpy.linalg.norm(a) < numpy.linalg.norm(b)`) are modelled on squared norms:
square root is strictly monotone on `[0, ∞]` and preserves `inf` and `nan`. -/
def P3.normSq (v : P3) : F := F.add (F.add (F.sq v.x) (F.sq v.y)) (F.sq v.z)

/-- Models `numpy.linalg.norm(a) < numpy.linalg.norm(b)`. -/
def normLt (a b : P3) : Bool := F.lt a.normSq b.normSq

/-- Result of a shapely `path.intersection(ring)` collaborator call: an empty
geometry, a single `Point`, a `MultiPoint`, or a degenerate (collinear
overlap) `LineString` with a nonempty vertex list. -/
inductive ShapelyResult where
  | empty
  | point (p : P3)
  | multi (ps : List P3)
  | line (p : P3) (ps : List P3)
deriving DecidableEq, Repr

/-- A shapely `LineString` path: its vertex list, plus the collaborator
composition `fun q => path.interpolate(path.project(q))` (the point of the
path nearest to `q`, by arclength projection and interpolation). -/
structure Path where
  coords : List P3
  pin : P3 → P3

/-- One hole (interior ring) of a polygon, with its collaborator operations:
strict containment in the open region bounded by the ring, membership of the
ring curve itself, `geometry.lines.point_line_distance(point, ring)[0]`, and
`path.intersection(ring)`. -/
structure Hole where
  inside : P3 → Bool
  onCurve : P3 → Bool
  distVec : P3 → P3
  intersect : Path → ShapelyResult

/-- A shapely `Polygon` together with the collaborator operations the source
invokes on it: strict containment in the open region bounded by the exterior
ring, membership of the exterior ring curve, the hole list,
`geometry.lines.point_line_distance(point, exterior)[0]`,
`path.within(polygon)`, `path.intersection(polygon.exterior)`, and the
segment queries `segment.within(polygon)` / `segment.intersects(polygon)`
used by the top/bottom-face crossing scan (segments are two-point, given by
their endpoints). -/
structure Poly where
  insideExterior : P3 → Bool
  onExterior : P3 → Bool
  holes : List Hole
  exteriorDistVec : P3 → P3
  pathWithin : Path → Bool
  exteriorIntersect : Path → ShapelyResult
  segWithin : P3 → P3 → Bool
  segIntersects : P3 → P3 → Bool

/-- shapely `Point.within(Polygon)`: the point lies in the polygon's interior,
i.e. strictly inside the exterior ring, not on the exterior ring, and neither
inside nor on any hole ring (holes are removed as closed sets). -/
def Poly.within (s : Poly) (p : P3) : Bool :=
  s.insideExterior p && !s.onExterior p &&
    s.holes.all fun h => !h.inside p && !h.onCurve p

/-- A Python exception escaping a method of the source. -/
inductive PyErr where
  | nameError (name : String)
  | attributeError (name : String)
deriving DecidableEq, Repr

/-- The state of a constructed `ShapePrimitive`: the polygon, the `_id`
string and the `_epsilon` tolerance. -/
structure ShapePrimitive where
  shape : Poly
  id : String
  epsilon : F

/-- The contents of the definition dictionary consumed by
`ShapePrimitive.define_from_dictionary`. -/
structure ShapeDefinition where
  shape : Poly
  id : Option String
  epsilon : Option F

/-- `ShapePrimitive.define_from_dictionary`: stores the polygon; if no `id`
is given, an md5 hash of the shape string and a random salt is synthesized
(nondeterministic and irrelevant to every claim, modelled as an opaque
placeholder string); `epsilon` defaults to `1e-6`. -/
def ShapePrimitive.define_from_dictionary (d : ShapeDefinition) : ShapePrimitive :=
  ⟨d.shape, d.id.getD "md5-of-shape-and-random-salt",
    d.epsilon.getD (F.fin (1 / 1000000))⟩

/-- `ShapePrimitive.is_point_inside`: `point.within(self._shape)`. -/
def ShapePrimitive.is_point_inside (s : ShapePrimitive) (p : P3) : Bool :=
  s.shape.within p

/-- `ShapePrimitive.is_path_inside`: `path.within(self._shape)`. -/
def ShapePrimitive.is_path_inside (s : ShapePrimitive) (path : Path) : Bool :=
  s.shape.pathWithin path

/-- `ShapePrimitive.nearest_exterior`:
`geometry.lines.point_line_distance(point, self._shape.exterior)[0]`. -/
def ShapePrimitive.nearest_exterior (s : ShapePrimitive) (p : P3) : P3 :=
  s.shape.exteriorDistVec p

/-- `ShapePrimitive.nearest_hole`: starts from the all-infinity sentinel and
keeps the strictly-smaller-norm distance vector over the holes, in
declaration order. -/
def ShapePrimitive.nearest_hole (s : ShapePrimitive) (p : P3) : P3 :=
  s.shape.holes.foldl
    (fun v h => if normLt (h.distVec p) v then h.distVec p else v) infVec

/-- `ShapePrimitive.nearest_boundary`: the hole vector if its norm is
strictly smaller than the exterior vector's, otherwise the exterior
vector. -/
def ShapePrimitive.nearest_boundary (s : ShapePrimitive) (p : P3) : P3 :=
  if normLt (s.nearest_hole p) (s.nearest_exterior p) then s.nearest_hole p
  else s.nearest_exterior p

/-- `ShapePrimitive.exterior_intersections`: line 180 binds
`intersection = path.intersection(self._shape.exterior)`, but line 182 reads
the undefined name `intersections`, so every call raises `NameError` before
any branch of the result normalization is reached. -/
def ShapePrimitive.exterior_intersections (s : ShapePrimitive) (path : Path) :
    Except PyErr (List P3) :=
  let _intersection := s.shape.exteriorIntersect path
  Except.error (PyErr.nameError "intersections")

/-- `ShapePrimitive.hole_intersections`: per hole, in declaration order, the
normalized tuple of intersection points between the path and the hole ring: a
single `Point` becomes a one-element tuple, a degenerate `LineString`
(collinear overlap, seen when the intersection is on a vertex) is collapsed
to its first vertex, a `MultiPoint` is iterated, an empty geometry gives an
empty tuple. -/
def ShapePrimitive.hole_intersections (s : ShapePrimitive) (path : Path) :
    List (List P3) :=
  s.shape.holes.map fun h =>
    match h.intersect path with
    | .point p => [p]
    | .line p _ => [p]
    | .multi ps => ps
    | .empty => []

/-- `ShapePrimitive.intersections`: line 235 calls
`self.exterior_intersection(path)` (note the missing final `s`), a method
that does not exist on the class, so every call raises `AttributeError`.
Had it returned, the result would hold the exterior intersection points
(left summand) followed by the per-hole tuples (right summand). -/
def ShapePrimitive.intersections (_s : ShapePrimitive) (_path : Path) :
    Except PyErr (List (P3 ⊕ List P3)) :=
  Except.error (PyErr.attributeError "exterior_intersection")

/-- The state of a constructed `PrismaticShape`: the inherited
`ShapePrimitive` state plus `_z0` (down position of the base, the bottom
face) and `_zt` (down position of the top face). -/
structure PrismaticShape where
  flat : ShapePrimitive
  z0 : F
  zt : F

/-- The contents of the definition dictionary consumed by
`PrismaticShape.define_from_dictionary`. -/
structure PrismDefinition where
  shape : Poly
  id : Option String
  epsilon : Option F
  z0 : F
  zt : F

/-- `PrismaticShape.define_from_dictionary`: the superclass fields, then
`self._z0 = float(definition['z0'])` and `self._zt = float(definition['zt'])`.
No relation between `zt` and `z0` is checked: construction always succeeds
and stores the two values as given. -/
def PrismaticShape.define_from_dictionary (d : PrismDefinition) : PrismaticShape :=
  ⟨ShapePrimitive.define_from_dictionary ⟨d.shape, d.id, d.epsilon⟩, d.z0, d.zt⟩

/-- `PrismaticShape.__init__` with no definition dictionary: `z0` (bottom)
defaults to `+inf` and `zt` (top) defaults to `-inf`. -/
def PrismaticShape.init (shape : Poly) (z0 zt : Option F) : PrismaticShape :=
  PrismaticShape.define_from_dictionary
    ⟨shape, none, none, z0.getD F.inf, zt.getD F.ninf⟩

/-- `PrismaticShape.is_point_inside`: the inherited lateral test and
`(point.z > self._zt) and (point.z < self._z0)`, both strict. -/
def PrismaticShape.is_point_inside (s : PrismaticShape) (p : P3) : Bool :=
  s.flat.is_point_inside p && F.lt s.zt p.z && F.lt p.z s.z0

/-- `PrismaticShape.is_path_inside`: asserts that the path carries z
coordinates (paths are modelled with full 3-d coordinates), then the
inherited lateral test and `numpy.all(z > self._zt) and
numpy.all(z < self._z0)` over the vertex elevations. -/
def PrismaticShape.is_path_inside (s : PrismaticShape) (path : Path) : Bool :=
  s.flat.is_path_inside path &&
    path.coords.all (fun c => F.lt s.zt c.z) &&
    path.coords.all (fun c => F.lt c.z s.z0)

/-- `PrismaticShape._z_difference`: overwrite the down component of the
vector with `numpy.clip(point.z, self._zt, self._z0) - point.z`. -/
def PrismaticShape.z_difference (s : PrismaticShape) (p : P3) (v : P3) : P3 :=
  ⟨v.x, v.y, F.sub (F.clip p.z s.zt s.z0) p.z⟩

/-- `PrismaticShape.nearest_exterior`: a zero vector if the point is already
laterally within the polygon, otherwise the inherited exterior distance
vector; then the down component is overwritten by `_z_difference`. -/
def PrismaticShape.nearest_exterior (s : PrismaticShape) (p : P3) : P3 :=
  s.z_difference p
    (if s.flat.shape.within p then P3.zero else s.flat.nearest_exterior p)

/-- `PrismaticShape.nearest_hole`: the inherited hole vector with the down
component overwritten by `_z_difference`. -/
def PrismaticShape.nearest_hole (s : PrismaticShape) (p : P3) : P3 :=
  s.z_difference p (s.flat.nearest_hole p)

/-- `PrismaticShape.nearest_boundary`: `super().nearest_boundary(point)`
dispatches (Python dynamic dispatch on `self`) to the prismatic overrides of
`nearest_exterior` and `nearest_hole`, compares their norms, then
`_z_difference` is applied once more (idempotently). -/
def PrismaticShape.nearest_boundary (s : PrismaticShape) (p : P3) : P3 :=
  s.z_difference p
    (if normLt (s.nearest_hole p) (s.nearest_exterior p) then s.nearest_hole p
    else s.nearest_exterior p)

/-- Linear interpolation `a + f * (b - a)` along a two-point segment, the
model of `segment.interpolate(f, normalized=True)`.  The source only uses
the interpolated point when `0 < f < 1`, where shapely's interpolation is
exactly affine. -/
def lerp (a b : P3) (f : F) : P3 :=
  ⟨F.add a.x (F.mul f (F.sub b.x a.x)),
   F.add a.y (F.mul f (F.sub b.y a.y)),
   F.add a.z (F.mul f (F.sub b.z a.z))⟩

/-- Body of the per-segment loop of `PrismaticShape._z_intersection` for the
two-point segment `a`-`b`: skip the segment unless it is within or intersects
the polygon; otherwise solve linearly for the fraction `f_0` at which the
segment's elevation reaches the bottom plane `z0` (and `f_t` for the top
plane `zt`), dividing by the segment's elevation span `numpy.diff(s_z)`; a
crossing is kept only when `0 < f < 1` strictly and the interpolated point
lies laterally within the polygon footprint. -/
def PrismaticShape.segCrossings (s : PrismaticShape) (a b : P3) : List P3 :=
  if !(s.flat.shape.segWithin a b || s.flat.shape.segIntersects a b) then []
  else
    let dz := F.sub b.z a.z
    let f0 := F.div (F.sub s.z0 a.z) dz
    let bottomIntersection := lerp a b f0
    let ft := F.div (F.sub s.zt a.z) dz
    let topIntersection := lerp a b ft
    (if F.lt (F.fin 0) f0 && F.lt f0 (F.fin 1) &&
        s.flat.shape.within bottomIntersection
      then [lerp a b f0] else []) ++
    (if F.lt (F.fin 0) ft && F.lt ft (F.fin 1) &&
        s.flat.shape.within topIntersection
      then [lerp a b ft] else [])

/-- `PrismaticShape._z_intersection`: split the path at its own vertices
(`shapely.ops.split` at `path.coords[1:]` yields the consecutive two-point
segments; splitting at the final vertex is a no-op) and collect the
top/bottom plane crossings of each segment in order. -/
def PrismaticShape.z_intersection (s : PrismaticShape) (path : Path) : List P3 :=
  (path.coords.zip path.coords.tail).foldl
    (fun acc ab => acc ++ s.segCrossings ab.1 ab.2) []

/-- `PrismaticShape._check_z_intersection`: for each candidate intersection
point, project it back onto the path (`path.interpolate(path.project(i))`)
and keep it only when its elevation there satisfies
`(ip.z - eps) <= z0 and (ip.z + eps) >= zt`. -/
def PrismaticShape.check_z_intersection (s : PrismaticShape) (path : Path)
    (flatIntersections : List P3) : List P3 :=
  flatIntersections.filterMap fun i =>
    let ip := path.pin i
    if F.le (F.sub ip.z s.flat.epsilon) s.z0 &&
        F.le s.zt (F.add ip.z s.flat.epsilon) then some ip else none

/-- `PrismaticShape.exterior_intersections`: the inherited lateral-wall
intersections (whose computation always raises `NameError`, which
propagates), then the top/bottom plane crossings, then the elevation
filter. -/
def PrismaticShape.exterior_intersections (s : PrismaticShape) (path : Path) :
    Except PyErr (List P3) := do
  let flatIntersections ← s.flat.exterior_intersections path
  let withZ := flatIntersections ++ s.z_intersection path
  return s.check_z_intersection path withZ

/-- `PrismaticShape.hole_intersections` is inherited unchanged from
`ShapePrimitive`. -/
def PrismaticShape.hole_intersections (s : PrismaticShape) (path : Path) :
    List (List P3) :=
  s.flat.hole_intersections path

/-- `PrismaticShape.intersections`: the (elevation-aware) exterior
intersections followed by the per-hole tuples; the exterior computation
always raises, and the error propagates. -/
def PrismaticShape.intersections (s : PrismaticShape) (path : Path) :
    Except PyErr (List (P3 ⊕ List P3)) := do
  let ext ← s.exterior_intersections path
  return ext.map Sum.inl ++ (s.hole_intersections path).map Sum.inr
/-!
Concrete collaborator instances used by witnesses and counterexamples: an
axis-aligned square with corners (0,0) and (10,10), and a square hole with
corners (2,2) and (4,4), matching the scenarios of the design's testable
properties.  The distance-vector fields are instantiated with the honest
geometric values for the query points the witnesses use (vector to the
nearest wall).
-/

/-- Strict interior of the 10×10 square ring. -/
def sqInsideB (p : P3) : Bool :=
  F.lt (F.fin 0) p.x && F.lt p.x (F.fin 10) &&
    F.lt (F.fin 0) p.y && F.lt p.y (F.fin 10)

/-- Membership of the 10×10 square ring curve itself. -/
def sqOnB (p : P3) : Bool :=
  ((decide (p.x = F.fin 0) || decide (p.x = F.fin 10)) &&
      F.le (F.fin 0) p.y && F.le p.y (F.fin 10)) ||
  ((decide (p.y = F.fin 0) || decide (p.y = F.fin 10)) &&
      F.le (F.fin 0) p.x && F.le p.x (F.fin 10))

/-- The square hole ring with corners (2,2) and (4,4). -/
def sqHole : Hole where
  inside p :=
    F.lt (F.fin 2) p.x && F.lt p.x (F.fin 4) &&
      F.lt (F.fin 2) p.y && F.lt p.y (F.fin 4)
  onCurve p :=
    ((decide (p.x = F.fin 2) || decide (p.x = F.fin 4)) &&
        F.le (F.fin 2) p.y && F.le p.y (F.fin 4)) ||
    ((decide (p.y = F.fin 2) || decide (p.y = F.fin 4)) &&
        F.le (F.fin 2) p.x && F.le p.x (F.fin 4))
  distVec p := ⟨F.sub (F.fin 2) p.x, F.fin 0, F.fin 0⟩
  intersect _ := ShapelyResult.empty

/-- The 10×10 square polygon without holes. -/
def sqPoly : Poly where
  insideExterior := sqInsideB
  onExterior := sqOnB
  holes := []
  exteriorDistVec p := ⟨F.sub (F.fin 10) p.x, F.fin 0, F.fin 0⟩
  pathWithin pa := pa.coords.all sqInsideB
  exteriorIntersect _ := ShapelyResult.empty
  segWithin a b := sqInsideB a && sqInsideB b
  segIntersects a b := sqInsideB a || sqInsideB b

/-- The 10×10 square polygon with the (2,2)-(4,4) hole. -/
def sqPolyH : Poly where
  insideExterior := sqInsideB
  onExterior := sqOnB
  holes := [sqHole]
  exteriorDistVec p := ⟨F.sub (F.fin 10) p.x, F.fin 0, F.fin 0⟩
  pathWithin pa := pa.coords.all sqInsideB
  exteriorIntersect _ := ShapelyResult.empty
  segWithin a b := sqInsideB a && sqInsideB b
  segIntersects a b := sqInsideB a || sqInsideB b

/-- A path used by sample evaluations: two vertices at elevation 0 crossing
the square laterally; `pin` is the identity (every candidate produced by the
source already lies on the path). -/
def samplePath : Path where
  coords := [⟨F.fin (-1), F.fin 5, F.fin 0⟩, ⟨F.fin 11, F.fin 5, F.fin 0⟩]
  pin p := p

/-!
Helper lemmas about the float model and the norm comparisons.
-/

theorem F.lt_self_eq_false (x : F) : F.lt x x = false := by
  cases x <;> simp [F.lt]

theorem F.lt_flip_eq_false {a b : F} (h : F.lt a b = true) : F.lt b a = false := by
  cases a <;> cases b <;> simp_all [F.lt]
  linarith

theorem F.lt_trans_t {a b c : F} (h1 : F.lt a b = true) (h2 : F.lt b c = true) :
    F.lt a c = true := by
  cases a <;> cases b <;> cases c <;> simp_all [F.lt]
  linarith

theorem F.eq_of_not_lt_of_not_lt {a b : F} (ha : a ≠ F.nan) (hb : b ≠ F.nan)
    (h1 : F.lt a b = false) (h2 : F.lt b a = false) : a = b := by
  cases a <;> cases b <;> simp_all [F.lt]
  linarith

theorem F.minF_eq_ite {a b : F} (ha : a ≠ F.nan) (hb : b ≠ F.nan) :
    F.minF a b = if F.lt b a then b else a := by
  cases a <;> cases b <;> simp_all [F.minF]

/-- A vector sharing its down component with a vector of zero lateral
components never has strictly smaller norm: squares are nonnegative, and the
infinity and `nan` cases of the extended comparison also refuse. -/
theorem normLt_zero_lat_eq_false (a b dz : F) :
    normLt ⟨a, b, dz⟩ ⟨F.fin 0, F.fin 0, dz⟩ = false := by
  cases a <;> cases b <;> cases dz <;>
    simp [normLt, P3.normSq, F.sq, F.mul, F.add, F.lt]
  nlinarith [mul_self_nonneg (0:ℚ)]

/-- Dividing any float by (positive) zero yields `inf`, `ninf` or `nan`, and
none of these satisfies the strict window `0 < f < 1`. -/
theorem div_zero_frac_eq_false (x : F) :
    (F.lt (F.fin 0) (F.div x (F.fin 0)) &&
      F.lt (F.div x (F.fin 0)) (F.fin 1)) = false := by
  cases x <;> simp [F.div, F.lt]
  rename_i q
  rcases lt_trichotomy q 0 with h | h | h <;>
    simp [h, ne_of_gt, ne_of_lt, not_lt_of_gt, F.lt]

/-- The running minimum of `ShapePrimitive.nearest_hole` always ends at its
initial value or at one of the hole distance vectors. -/
theorem nearestHoleFold_choice (p : P3) (l : List Hole) (v : P3) :
    List.foldl (fun w h => if normLt (h.distVec p) w then h.distVec p else w) v l = v ∨
    ∃ h ∈ l,
      List.foldl (fun w h => if normLt (h.distVec p) w then h.distVec p else w) v l =
        h.distVec p := by
  induction l generalizing v with
  | nil => exact Or.inl rfl
  | cons h0 rest ih =>
    simp only [List.foldl_cons]
    cases hc : normLt (h0.distVec p) v
    · simp only [Bool.false_eq_true, if_false]
      rcases ih v with h | ⟨h, hmem, heq⟩
      · exact Or.inl h
      · exact Or.inr ⟨h, List.mem_cons_of_mem _ hmem, heq⟩
    · simp only [if_true]
      rcases ih (h0.distVec p) with h | ⟨h, hmem, heq⟩
      · exact Or.inr ⟨h0, List.mem_cons_self _ _, h⟩
      · exact Or.inr ⟨h, List.mem_cons_of_mem _ hmem, heq⟩

/-!
Claim theorems.
-/

/-- C1: for every prismatic shape and every 3-d point, `is_point_inside`
returns true iff the lateral projection lies strictly inside the exterior
boundary and outside (and off) all holes, and the down coordinate satisfies
`top < z < bottom` with strict inequalities; in particular a point with `z`
exactly equal to the top or to the bottom is not inside. -/
theorem claim_c1 (s : PrismaticShape) (p : P3) :
    (s.is_point_inside p = true ↔
      (s.flat.shape.insideExterior p = true ∧ s.flat.shape.onExterior p = false ∧
        (∀ h ∈ s.flat.shape.holes, h.inside p = false ∧ h.onCurve p = false) ∧
        F.lt s.zt p.z = true ∧ F.lt p.z s.z0 = true)) ∧
    ((p.z = s.zt ∨ p.z = s.z0) → s.is_point_inside p = false) := by
  constructor
  · simp [PrismaticShape.is_point_inside, ShapePrimitive.is_point_inside,
      Poly.within, List.all_eq_true, and_assoc]
  · rintro (h | h) <;>
      simp [PrismaticShape.is_point_inside, h, F.lt_self_eq_false]

/-- Witness for C1 at a concrete prism and a point whose elevation equals
the top face exactly. -/
def c1Prism : PrismaticShape :=
  PrismaticShape.define_from_dictionary ⟨sqPoly, none, none, F.fin 5, F.fin (-5)⟩

def c1Pt : P3 := ⟨F.fin 5, F.fin 5, F.fin (-5)⟩

theorem claim_c1_witness :
    (c1Pt.z = c1Prism.zt ∨ c1Pt.z = c1Prism.z0) ∧
      c1Prism.is_point_inside c1Pt = false :=
  ⟨Or.inl rfl, (claim_c1 c1Prism c1Pt).2 (Or.inl rfl)⟩

/-- C9: for every shape (flat or prismatic) and every point lying exactly on
the exterior ring curve or on a hole ring curve, `is_point_inside` returns
false: shapely `within` tests the open interior, so containment is strict
and boundary points are excluded. -/
theorem claim_c9 (s : PrismaticShape) (p : P3)
    (h : s.flat.shape.onExterior p = true ∨
      ∃ hh ∈ s.flat.shape.holes, hh.onCurve p = true) :
    s.flat.is_point_inside p = false ∧ s.is_point_inside p = false := by
  have hw : s.flat.shape.within p = false := by
    rcases h with h | ⟨hh, hmem, hcv⟩
    · simp [Poly.within, h]
    · have : ¬ (s.flat.shape.within p = true) := by
        simp only [Poly.within, Bool.and_eq_true, List.all_eq_true]
        rintro ⟨-, hall⟩
        have := hall hh hmem
        simp [hcv] at this
      exact Bool.eq_false_iff.mpr (fun hcontra => this hcontra)
  constructor
  · simpa [ShapePrimitive.is_point_inside] using hw
  · simp [PrismaticShape.is_point_inside, ShapePrimitive.is_point_inside, hw]

/-- Witness for C9 at a concrete shape and a point on the west edge of the
exterior ring. -/
def c9Prism : PrismaticShape :=
  PrismaticShape.define_from_dictionary ⟨sqPolyH, none, none, F.fin 5, F.fin (-5)⟩

def c9Pt : P3 := ⟨F.fin 0, F.fin 5, F.fin 0⟩

theorem claim_c9_witness :
    c9Prism.flat.shape.onExterior c9Pt = true ∧
      c9Prism.flat.is_point_inside c9Pt = false ∧
      c9Prism.is_point_inside c9Pt = false :=
  ⟨by with_unfolding_all rfl,
    (claim_c9 c9Prism c9Pt (Or.inl (by with_unfolding_all rfl))).1,
    (claim_c9 c9Prism c9Pt (Or.inl (by with_unfolding_all rfl))).2⟩

/-- C2 (code bug): `PrismaticShape.exterior_intersections` never returns the
filtered union of lateral-wall and top/bottom-plane crossings, because the
inherited `ShapePrimitive.exterior_intersections` raises `NameError` (it
reads the undefined name `intersections` on line 182) on every call, and the
exception propagates before `_z_intersection` or `_check_z_intersection`
run. -/
theorem claim_c2_eval (s : PrismaticShape) (path : Path) :
    s.exterior_intersections path =
      Except.error (PyErr.nameError "intersections") := rfl

/-- C4 (code bug): `ShapePrimitive.exterior_intersections` raises
`NameError` on every call (for every collaborator result: empty, single
point, multi-point, or degenerate curve), instead of normalizing the result
into a tuple: line 182 reads the undefined name `intersections`. -/
theorem claim_c4_eval (s : ShapePrimitive) (path : Path) :
    s.exterior_intersections path =
      Except.error (PyErr.nameError "intersections") := rfl

/-- C5 (code bug): `intersections` never returns the exterior-then-holes
union for any shape: the flat version calls the nonexistent method
`exterior_intersection` (AttributeError, line 235), and the prismatic
version propagates the `NameError` raised inside its exterior-intersection
computation. -/
theorem claim_c5_eval (s : ShapePrimitive) (t : PrismaticShape) (path : Path) :
    s.intersections path =
        Except.error (PyErr.attributeError "exterior_intersection") ∧
      t.intersections path =
        Except.error (PyErr.nameError "intersections") :=
  ⟨rfl, rfl⟩

/-- C3 counterexample shape: the square with the (2,2)-(4,4) hole, extruded
between top -5 and bottom 5. -/
def c3Prism : PrismaticShape :=
  PrismaticShape.define_from_dictionary ⟨sqPolyH, none, none, F.fin 5, F.fin (-5)⟩

def c3Pt : P3 := ⟨F.fin 1, F.fin 3, F.fin 0⟩

/-- C3 is false as stated: at a point laterally inside the polygon,
`nearest_hole` keeps the flat lateral hole-distance vector (here `(1, 0)`),
which is not zero — only `nearest_exterior` and `nearest_boundary` zero the
lateral part. -/
theorem claim_c3_counterexample :
    c3Prism.flat.shape.within c3Pt = true ∧
      ¬((c3Prism.nearest_hole c3Pt).x = F.fin 0 ∧
        (c3Prism.nearest_hole c3Pt).y = F.fin 0) := by
  with_unfolding_all decide

/-- C3 amended: for every prismatic shape and point laterally inside the
polygon, `nearest_exterior` and `nearest_boundary` return vectors with zero
lateral components (`nearest_hole` does not: it keeps the flat hole vector);
and for every point, the down component of all three vectors equals
`clip(point.z, top, bottom) - point.z`. -/
theorem claim_c3_amended (s : PrismaticShape) (p : P3)
    (h : s.flat.shape.within p = true) :
    ((s.nearest_exterior p).x = F.fin 0 ∧ (s.nearest_exterior p).y = F.fin 0) ∧
    ((s.nearest_boundary p).x = F.fin 0 ∧ (s.nearest_boundary p).y = F.fin 0) ∧
    (∀ q : P3,
      (s.nearest_exterior q).z = F.sub (F.clip q.z s.zt s.z0) q.z ∧
      (s.nearest_hole q).z = F.sub (F.clip q.z s.zt s.z0) q.z ∧
      (s.nearest_boundary q).z = F.sub (F.clip q.z s.zt s.z0) q.z) := by
  have hre : s.nearest_exterior p =
      ⟨F.fin 0, F.fin 0, F.sub (F.clip p.z s.zt s.z0) p.z⟩ := by
    simp [PrismaticShape.nearest_exterior, h, PrismaticShape.z_difference, P3.zero]
  have hrh : s.nearest_hole p =
      ⟨(s.flat.nearest_hole p).x, (s.flat.nearest_hole p).y,
        F.sub (F.clip p.z s.zt s.z0) p.z⟩ := rfl
  have hlt : normLt (s.nearest_hole p) (s.nearest_exterior p) = false := by
    rw [hre, hrh]
    exact normLt_zero_lat_eq_false _ _ _
  refine ⟨by rw [hre]; exact ⟨rfl, rfl⟩, ?_, fun q => ⟨rfl, rfl, rfl⟩⟩
  simp only [PrismaticShape.nearest_boundary, hlt, Bool.false_eq_true, if_false]
  rw [hre]
  exact ⟨rfl, rfl⟩

def c3WPt : P3 := ⟨F.fin 5, F.fin 8, F.fin 7⟩

/-- Witness for the amended C3 at a concrete shape and point (elevation 7 is
below the bottom face 5, so the down component is `5 - 7 = -2`). -/
theorem claim_c3_witness :
    c3Prism.flat.shape.within c3WPt = true ∧
      (c3Prism.nearest_boundary c3WPt).x = F.fin 0 ∧
      (c3Prism.nearest_boundary c3WPt).z =
        F.sub (F.clip c3WPt.z c3Prism.zt c3Prism.z0) c3WPt.z :=
  ⟨by with_unfolding_all rfl,
    ((claim_c3_amended c3Prism c3WPt (by with_unfolding_all rfl)).2.1).1,
    ((claim_c3_amended c3Prism c3WPt (by with_unfolding_all rfl)).2.2 c3WPt).2.2⟩

/-- C6 counterexample input: `z0` (bottom) = -5, `zt` (top) = 5, i.e.
top > bottom. -/
def c6Def : PrismDefinition := ⟨sqPoly, none, none, F.fin (-5), F.fin 5⟩

/-- C6 is false as stated: `define_from_dictionary` performs no validation,
so a prism whose top is strictly greater than its bottom is constructed
without any configuration error, violating the claimed invariant
`top ≤ bottom`. -/
theorem claim_c6_counterexample :
    F.le (PrismaticShape.define_from_dictionary c6Def).zt
        (PrismaticShape.define_from_dictionary c6Def).z0 = false ∧
      F.lt (PrismaticShape.define_from_dictionary c6Def).z0
        (PrismaticShape.define_from_dictionary c6Def).zt = true := by
  with_unfolding_all decide

/-- C6 amended: construction stores `top` and `bottom` exactly as given and
always succeeds — no configuration error exists in the code path; a prism
constructed with `top > bottom` simply contains no point at all. -/
theorem claim_c6_amended (d : PrismDefinition) :
    (PrismaticShape.define_from_dictionary d).z0 = d.z0 ∧
    (PrismaticShape.define_from_dictionary d).zt = d.zt ∧
    (F.lt d.z0 d.zt = true →
      ∀ p : P3,
        (PrismaticShape.define_from_dictionary d).is_point_inside p = false) := by
  refine ⟨rfl, rfl, fun hlt p => ?_⟩
  cases h1 : F.lt d.zt p.z
  · simp [PrismaticShape.is_point_inside, PrismaticShape.define_from_dictionary, h1]
  · cases h2 : F.lt p.z d.z0
    · simp [PrismaticShape.is_point_inside, PrismaticShape.define_from_dictionary, h2]
    · simpa [F.lt_self_eq_false] using F.lt_trans_t (F.lt_trans_t hlt h1) h2

/-- Witness for the amended C6: the inverted prism is constructed and a
point laterally inside it at elevation 0 is still not contained. -/
theorem claim_c6_witness :
    F.lt c6Def.z0 c6Def.zt = true ∧
      (PrismaticShape.define_from_dictionary c6Def).is_point_inside
        ⟨F.fin 5, F.fin 5, F.fin 0⟩ = false :=
  ⟨by with_unfolding_all rfl,
    (claim_c6_amended c6Def).2.2 (by with_unfolding_all rfl)
      ⟨F.fin 5, F.fin 5, F.fin 0⟩⟩

/-- C7: for every flat shape and point, `nearest_boundary` has the smaller
magnitude of `nearest_exterior` and `nearest_hole` (on squared norms, which
order exactly as magnitudes do), the exterior vector wins on exact magnitude
equality, and `nearest_hole` is the all-infinity sentinel when the shape has
no holes.  The hypotheses exclude `nan` norms, which no real collaborator
distance vector produces. -/
theorem claim_c7 (s : ShapePrimitive) (p : P3)
    (h1 : (s.nearest_exterior p).normSq ≠ F.nan)
    (h2 : (s.nearest_hole p).normSq ≠ F.nan) :
    (s.nearest_boundary p).normSq =
        F.minF (s.nearest_exterior p).normSq (s.nearest_hole p).normSq ∧
      ((s.nearest_hole p).normSq = (s.nearest_exterior p).normSq →
        s.nearest_boundary p = s.nearest_exterior p) ∧
      (s.shape.holes = [] → s.nearest_hole p = infVec) := by
  refine ⟨?_, ?_, fun hnil => by simp [ShapePrimitive.nearest_hole, hnil]⟩
  · rw [F.minF_eq_ite h1 h2]
    simp only [ShapePrimitive.nearest_boundary, normLt]
    exact apply_ite P3.normSq _ _ _
  · intro heq
    simp [ShapePrimitive.nearest_boundary, normLt, heq, F.lt_self_eq_false]

def c7Flat : ShapePrimitive :=
  ShapePrimitive.define_from_dictionary ⟨sqPoly, none, none⟩

def c7Pt : P3 := ⟨F.fin 4, F.fin 5, F.fin 0⟩

/-- Witness for C7 at a concrete flat shape without holes: the exterior
vector is `(6,0,0)` (squared norm 36), the hole sentinel has infinite
norm, and the boundary vector picks the exterior one. -/
theorem claim_c7_witness :
    ((c7Flat.nearest_exterior c7Pt).normSq ≠ F.nan) ∧
      ((c7Flat.nearest_hole c7Pt).normSq ≠ F.nan) ∧
      (c7Flat.nearest_boundary c7Pt).normSq =
        F.minF (c7Flat.nearest_exterior c7Pt).normSq
          (c7Flat.nearest_hole c7Pt).normSq :=
  ⟨by with_unfolding_all decide, by with_unfolding_all decide,
    (claim_c7 c7Flat c7Pt (by with_unfolding_all decide)
      (by with_unfolding_all decide)).1⟩

/-- The acceptance test of a plane crossing, `0 < f < 1` conjoined with the
footprint test, is false whenever `f` comes from a division by zero. -/
theorem crossing_cond_zero (x : F) (c : Bool) :
    (F.lt (F.fin 0) (F.div x (F.fin 0)) &&
      F.lt (F.div x (F.fin 0)) (F.fin 1) && c) = false := by
  cases hc : c
  · simp
  · simpa using div_zero_frac_eq_false x

/-- C10: on a segment of constant (finite) elevation the plane-crossing
solver divides by the zero elevation span; the resulting non-finite (or
`nan`) fraction fails the strict `0 < f < 1` acceptance test, so the
segment contributes no top or bottom crossing — and the computation is
total, mirroring numpy's divide-by-zero warning-not-exception behaviour. -/
theorem claim_c10 (s : PrismaticShape) (a b : P3) (q : ℚ) (f : P3 → P3)
    (ha : a.z = F.fin q) (hb : b.z = F.fin q) :
    s.z_intersection ⟨[a, b], f⟩ = [] := by
  have hdz : F.sub b.z a.z = F.fin 0 := by
    rw [ha, hb]
    simp [F.sub, F.add, F.neg]
  show [] ++ s.segCrossings a b = []
  rw [List.nil_append]
  cases hg : (s.flat.shape.segWithin a b || s.flat.shape.segIntersects a b)
  · simp [PrismaticShape.segCrossings, hg]
  · simp [PrismaticShape.segCrossings, hg, hdz, crossing_cond_zero]

def c10Prism : PrismaticShape :=
  PrismaticShape.define_from_dictionary ⟨sqPoly, none, none, F.fin 5, F.fin (-5)⟩

def c10A : P3 := ⟨F.fin 1, F.fin 5, F.fin 0⟩

def c10B : P3 := ⟨F.fin 9, F.fin 5, F.fin 0⟩

/-- Witness for C10: a constant-elevation segment inside the sample prism
produces no plane crossing. -/
theorem claim_c10_witness :
    c10A.z = F.fin 0 ∧ c10B.z = F.fin 0 ∧
      c10Prism.z_intersection ⟨[c10A, c10B], fun p => p⟩ = [] :=
  ⟨rfl, rfl, claim_c10 c10Prism c10A c10B 0 (fun p => p) rfl rfl⟩

/-- A vector with finite components has a finite squared norm. -/
theorem normSq_fin_of_finite {v : P3} (hx : v.x.finite = true)
    (hy : v.y.finite = true) (hz : v.z.finite = true) :
    ∃ r : ℚ, v.normSq = F.fin r := by
  obtain ⟨a, b, c⟩ := v
  cases a <;> cases b <;> cases c <;>
    simp_all [F.finite, P3.normSq, F.sq, F.mul, F.add]

/-- C8 counterexample shape: the plain square prism with the default
(infinite) elevation bounds. -/
def c8Prism : PrismaticShape := PrismaticShape.init sqPoly none none

def c8Pt : P3 := ⟨F.fin 5, F.fin 5, F.fin 0⟩

/-- C8 is false as stated: at a point laterally inside the polygon, the
vertically-unbounded prism's `nearest_exterior` returns the zero vector
while the underlying flat shape returns the true vector to the exterior
boundary, `(5, 0, 0)` — the two shapes are not observationally equivalent
on every point query. -/
theorem claim_c8_counterexample :
    c8Prism.flat.shape.within c8Pt = true ∧
      c8Prism.flat.nearest_exterior c8Pt ≠ c8Prism.nearest_exterior c8Pt := by
  with_unfolding_all decide

/-- C8 amended: with the default bounds `top = -inf`, `bottom = +inf` and
finite inputs, the prism agrees with its underlying flat shape on
`is_point_inside`, on `is_path_inside`, on `hole_intersections`, and on
`exterior_intersections` (both raise the same `NameError`); `nearest_hole`
also agrees when holes exist and the collaborator hole vectors are finite
with zero down component.  Equivalence fails for `nearest_exterior` and
`nearest_boundary` (lateral zeroing inside, see the counterexample) and for
`intersections` (`AttributeError` versus `NameError`). -/
theorem claim_c8_amended (P : Poly) (p : P3) (pa : Path)
    (hz : p.z.finite = true)
    (hpa : ∀ c ∈ pa.coords, c.z.finite = true)
    (hd : ∀ h ∈ P.holes, (h.distVec p).x.finite = true ∧
      (h.distVec p).y.finite = true ∧ (h.distVec p).z = F.fin 0) :
    ((PrismaticShape.init P none none).is_point_inside p =
      (PrismaticShape.init P none none).flat.is_point_inside p) ∧
    ((PrismaticShape.init P none none).is_path_inside pa =
      (PrismaticShape.init P none none).flat.is_path_inside pa) ∧
    ((PrismaticShape.init P none none).hole_intersections pa =
      (PrismaticShape.init P none none).flat.hole_intersections pa) ∧
    ((PrismaticShape.init P none none).exterior_intersections pa =
      (PrismaticShape.init P none none).flat.exterior_intersections pa) ∧
    (P.holes ≠ [] →
      (PrismaticShape.init P none none).nearest_hole p =
        (PrismaticShape.init P none none).flat.nearest_hole p) := by
  have hSt : (PrismaticShape.init P none none).zt = F.ninf := rfl
  have hS0 : (PrismaticShape.init P none none).z0 = F.inf := rfl
  have hsh : (PrismaticShape.init P none none).flat.shape = P := rfl
  obtain ⟨q, hq⟩ : ∃ q : ℚ, p.z = F.fin q := by
    cases hpz : p.z with
    | fin a => exact ⟨a, rfl⟩
    | inf => rw [hpz] at hz; simp [F.finite] at hz
    | ninf => rw [hpz] at hz; simp [F.finite] at hz
    | nan => rw [hpz] at hz; simp [F.finite] at hz
  refine ⟨?_, ?_, rfl, rfl, ?_⟩
  · simp only [PrismaticShape.is_point_inside, hSt, hS0, hq]
    simp [F.lt]
  · have h1 : pa.coords.all (fun c => F.lt F.ninf c.z) = true := by
      simp only [List.all_eq_true]
      intro c hc
      have hf := hpa c hc
      cases hcz : c.z with
      | fin a => simp [F.lt]
      | inf => rw [hcz] at hf; simp [F.finite] at hf
      | ninf => rw [hcz] at hf; simp [F.finite] at hf
      | nan => rw [hcz] at hf; simp [F.finite] at hf
    have h2 : pa.coords.all (fun c => F.lt c.z F.inf) = true := by
      simp only [List.all_eq_true]
      intro c hc
      have hf := hpa c hc
      cases hcz : c.z with
      | fin a => simp [F.lt]
      | inf => rw [hcz] at hf; simp [F.finite] at hf
      | ninf => rw [hcz] at hf; simp [F.finite] at hf
      | nan => rw [hcz] at hf; simp [F.finite] at hf
    simp only [PrismaticShape.is_path_inside, hSt, hS0, h1, h2]
    simp
  · intro hne
    obtain ⟨h0, rest, hcons⟩ : ∃ h0 rest, P.holes = h0 :: rest := by
      cases hP : P.holes with
      | nil => exact absurd hP hne
      | cons x xs => exact ⟨x, xs, rfl⟩
    have hmem0 : h0 ∈ P.holes := by
      rw [hcons]
      exact List.mem_cons_self _ _
    obtain ⟨hx0, hy0, hz0c⟩ := hd h0 hmem0
    obtain ⟨r, hr⟩ := normSq_fin_of_finite hx0 hy0 (by rw [hz0c]; rfl)
    have hlt0 : normLt (h0.distVec p) infVec = true := by
      simp only [normLt]
      rw [hr]
      rfl
    have hfold : (PrismaticShape.init P none none).flat.nearest_hole p =
        List.foldl (fun w h => if normLt (h.distVec p) w then h.distVec p else w)
          (h0.distVec p) rest := by
      have e1 : (PrismaticShape.init P none none).flat.nearest_hole p =
          P.holes.foldl
            (fun w h => if normLt (h.distVec p) w then h.distVec p else w)
            infVec := rfl
      rw [e1, hcons, List.foldl_cons]
      simp [hlt0]
    obtain ⟨hh, hmemh, heqh⟩ :
        ∃ h ∈ P.holes,
          (PrismaticShape.init P none none).flat.nearest_hole p = h.distVec p := by
      rcases nearestHoleFold_choice p rest (h0.distVec p) with hcase | ⟨h, hmem, heq⟩
      · exact ⟨h0, hmem0, by rw [hfold, hcase]⟩
      · exact ⟨h, by rw [hcons]; exact List.mem_cons_of_mem _ hmem,
          by rw [hfold, heq]⟩
    have hdz0 : F.sub (F.clip p.z (PrismaticShape.init P none none).zt
        (PrismaticShape.init P none none).z0) p.z = F.fin 0 := by
      rw [hSt, hS0, hq]
      simp [F.clip, F.maxF, F.minF, F.lt, F.sub, F.add, F.neg]
    obtain ⟨hxh, hyh, hzh⟩ := hd hh hmemh
    calc (PrismaticShape.init P none none).nearest_hole p
        = ⟨((PrismaticShape.init P none none).flat.nearest_hole p).x,
            ((PrismaticShape.init P none none).flat.nearest_hole p).y, F.fin 0⟩ := by
          simp only [PrismaticShape.nearest_hole, PrismaticShape.z_difference, hdz0]
      _ = (PrismaticShape.init P none none).flat.nearest_hole p := by
          rw [heqh, ← hzh]

def c8WPt : P3 := ⟨F.fin 1, F.fin 3, F.fin 0⟩

/-- Witness for the amended C8 at the holed square and a finite point and
path. -/
theorem claim_c8_witness :
    sqPolyH.holes ≠ [] ∧
      (PrismaticShape.init sqPolyH none none).is_point_inside c8WPt =
        (PrismaticShape.init sqPolyH none none).flat.is_point_inside c8WPt ∧
      (PrismaticShape.init sqPolyH none none).nearest_hole c8WPt =
        (PrismaticShape.init sqPolyH none none).flat.nearest_hole c8WPt :=
  ⟨List.cons_ne_nil _ _,
    (claim_c8_amended sqPolyH c8WPt samplePath (by with_unfolding_all decide)
      (by with_unfolding_all decide) (by with_unfolding_all decide)).1,
    (claim_c8_amended sqPolyH c8WPt samplePath (by with_unfolding_all decide)
      (by with_unfolding_all decide) (by with_unfolding_all decide)).2.2.2.2
      (List.cons_ne_nil _ _)⟩

end ObstaclePrimitives
